import Mathlib

/-!
Verification of the Social-graph founder-enrichment pipeline.

Shallow embedding of the Python sources:
  scripts/enrichment/relevance_filter.py  (RelevanceFilter.filter_results)
  scripts/scrapers/apis/founder_scraper.py (FounderScraper)
  scripts/scrapers/apis/google_search.py   (GoogleSearchClient.search_media_appearances)
  scripts/scrapers/apis/jina.py            (JinaReader.read_url)
  scripts/scrapers/apis/exa.py             (ExaClient)
  scripts/enrich/enrichment_pipeline.py    (FounderEnrichmentPipeline.enrich_profile)
  scripts/batch_scrape.py                  (batch_scrape)

External effects (HTTP calls, the LLM response, the filesystem) are passed in
as explicit parameters: an Except value stands for a call that either returned
data or raised, and an Option (List EvalItem) stands for the parsed-or-not JSON
verdict of the relevance-filter backend.
-/

set_option linter.unusedVariables false

namespace SocialGraph

/-! ## Relevance filter (scripts/enrichment/relevance_filter.py) -/

/-- One search-result dict as handled by RelevanceFilter.filter_results.
The three annotation fields start absent and are set only by the filter. -/
structure SearchResult where
  title : String
  description : String
  url : String
  relevance_score : Option Int := none
  category : Option String := none
  relevance_reason : Option String := none
deriving Repr, DecidableEq

/-- One entry of the evaluations array parsed from the LLM JSON response. -/
structure EvalItem where
  index : Int
  relevance_score : Int
  category : String
  reason : String
deriving Repr, DecidableEq

/-- Sort key used on filtered results; every element the code sorts carries a
score, so the default is never observed. -/
def scoreKey (r : SearchResult) : Int := r.relevance_score.getD 0

/-- Python list indexing results[idx]: non-negative indices from the front,
negative indices from the back, IndexError (none) when out of range. -/
def pyGet (l : List SearchResult) (i : Int) : Option SearchResult :=
  if 0 ≤ i then l.get? i.toNat
  else if 0 ≤ (l.length : Int) + i then l.get? ((l.length : Int) + i).toNat
  else none

/-- The three assignments result[..] = eval_item[..] in filter_results. -/
def applyEval (r : SearchResult) (e : EvalItem) : SearchResult :=
  { r with relevance_score := some e.relevance_score,
           category := some e.category,
           relevance_reason := some e.reason }

/-- The merge loop of filter_results (lines 125-135): for each evaluation with
index below len(results), copy the indexed result, annotate it, and keep it when
its score reaches the threshold.  A Python IndexError (an index below minus the
length passes the guard idx less than len but indexing fails) aborts the whole
try block, modelled by none. -/
def mergeEvals (results : List SearchResult) (minScore : Int) :
    List EvalItem → Option (List SearchResult)
  | [] => some []
  | e :: rest =>
    if e.index < (results.length : Int) then
      match pyGet results e.index with
      | none => none
      | some r =>
        match mergeEvals results minScore rest with
        | none => none
        | some tl =>
          some (if minScore ≤ e.relevance_score then applyEval r e :: tl else tl)
    else mergeEvals results minScore rest

/-- Insert into a descending-sorted list, after all entries of equal or larger
key (the stable placement of Python list.sort). -/
def insertDesc (r : SearchResult) : List SearchResult → List SearchResult
  | [] => [r]
  | x :: xs => if scoreKey x < scoreKey r then r :: x :: xs else x :: insertDesc r xs

/-- filtered_results.sort(key=relevance_score, reverse=True): stable descending
sort by score, as left-to-right insertion. -/
def sortByScoreDesc (l : List SearchResult) : List SearchResult :=
  l.foldl (fun acc r => insertDesc r acc) []

/-- RelevanceFilter.filter_results, with the backend call abstracted: response
is some evals when the LLM reply parsed into the verdict schema, none when the
call failed or the reply was malformed or non-JSON (the except branch). -/
def filter_results (results : List SearchResult) (minScore : Int)
    (response : Option (List EvalItem)) : List SearchResult :=
  if results.isEmpty then []
  else
    match response with
    | none => results
    | some evals =>
      match mergeEvals results minScore evals with
      | none => results
      | some filtered => sortByScoreDesc filtered

/-- The returned list is sorted by descending relevance score. -/
abbrev DescendingByScore (l : List SearchResult) : Prop :=
  List.Pairwise (fun a b => scoreKey b ≤ scoreKey a) l

/-- The annotation pass alone, without the threshold: what scores the response
assigns to which candidates. Used to state the score-threshold law. -/
def annotate_all (results : List SearchResult) : List EvalItem → Option (List SearchResult)
  | [] => some []
  | e :: rest =>
    if e.index < (results.length : Int) then
      match pyGet results e.index with
      | none => none
      | some r => (annotate_all results rest).map (fun tl => applyEval r e :: tl)
    else annotate_all results rest

/-! ## Search-result records and URL selection (founder_scraper.py, google_search.py) -/

/-- One raw search-result dict as consumed by the URL-selection and merge loops:
only the url (possibly absent) and title fields are read there. -/
structure RawResult where
  title : String
  url : Option String
deriving Repr, DecidableEq

/-- founder_scraper.py line 150: domains skipped for google URLs before content
extraction. -/
def skip_domains : List String :=
  ["youtube.com", "twitter.com", "x.com", "facebook.com", "linkedin.com", "instagram.com"]

/-- google_search.py lines 162-165: domains excluded inside
search_media_appearances. -/
def excluded_domains : List String :=
  ["linkedin.com", "facebook.com", "twitter.com", "x.com",
   "instagram.com", "tiktok.com", "pinterest.com"]

/-- Python str.lower, character by character (the URLs and names involved are
ASCII). -/
def pyLower (s : String) : String := String.mk (s.toList.map Char.toLower)

/-- Python str.strip with no argument: drop whitespace from both ends. -/
def pyStrip (s : String) : String :=
  String.mk (((s.toList.dropWhile Char.isWhitespace).reverse.dropWhile
      Char.isWhitespace).reverse)

/-- Python substring test (sub in s). -/
def strContains (s sub : String) : Bool :=
  (List.range (s.toList.length + 1)).any (fun i => sub.toList.isPrefixOf (s.toList.drop i))

/-- any(domain in url.lower() for domain in doms). -/
def hasAnyDomain (u : String) (doms : List String) : Bool :=
  doms.any (fun d => strContains (pyLower u) d)

/-- One entry of urls_to_fetch in FounderScraper.scrape_all. -/
structure UrlItem where
  url : String
  source : String
  title : String
deriving Repr, DecidableEq

/-- One pass of the URL-collection loops in scrape_all (lines 138-153): keep a
result whose url is truthy and unseen; when domFilter is set (the google loop)
also require that no skip domain occurs in the lowercased url.  Returns the
collected items together with the final seen set. -/
def collect_urls (src : String) (domFilter : Bool) :
    List RawResult → List String → List UrlItem × List String
  | [], seen => ([], seen)
  | r :: rs, seen =>
    match r.url with
    | none => collect_urls src domFilter rs seen
    | some u =>
      if u = "" then collect_urls src domFilter rs seen
      else if u ∈ seen then collect_urls src domFilter rs seen
      else if domFilter && hasAnyDomain u skip_domains then collect_urls src domFilter rs seen
      else
        let p := collect_urls src domFilter rs (u :: seen)
        ({ url := u, source := src, title := r.title } :: p.1, p.2)

/-- The full (uncapped) urls_to_fetch list: exa URLs first with no domain
filter, then google URLs filtered by skip_domains, sharing one seen set. -/
def merge_candidate_urls (exaResults googleResults : List RawResult) : List UrlItem :=
  let p1 := collect_urls "exa" false exaResults []
  let p2 := collect_urls "google" true googleResults p1.2
  p1.1 ++ p2.1

/-- scrape_all line 156: urls_to_fetch capped at max_results_per_source * 2. -/
def urls_to_fetch (exaResults googleResults : List RawResult) (maxPerSource : Nat) : List UrlItem :=
  (merge_candidate_urls exaResults googleResults).take (maxPerSource * 2)

/-! ## Google search merge (google_search.py, search_media_appearances) -/

/-- The per-query collection loop of search_media_appearances (lines 170-177):
truthy unseen URLs outside the excluded domains are appended; the rest are
dropped. -/
def google_collect : List RawResult → List String → List RawResult × List String
  | [], seen => ([], seen)
  | r :: rs, seen =>
    match r.url with
    | none => google_collect rs seen
    | some u =>
      if u = "" then google_collect rs seen
      else if u ∈ seen then google_collect rs seen
      else if hasAnyDomain u excluded_domains then google_collect rs seen
      else
        let p := google_collect rs (u :: seen)
        (r :: p.1, p.2)

/-- One query of search_media_appearances: a failed call is caught and
contributes nothing; a successful one runs the collection loop over the shared
seen set. -/
def google_query_step (acc : List RawResult × List String)
    (q : Except String (List RawResult)) : List RawResult × List String :=
  match q with
  | .error _ => acc
  | .ok rs =>
    let p := google_collect rs acc.2
    (acc.1 ++ p.1, p.2)

/-- search_media_appearances step 1: fold the four query calls, accumulating
all_results across queries with one shared seen set. -/
def search_media_appearances_merge
    (queryOutcomes : List (Except String (List RawResult))) : List RawResult :=
  (queryOutcomes.foldl google_query_step (([], []) : List RawResult × List String)).1

/-! ## Jina Reader (jina.py) and content fetching -/

/-- The payload of a successful Jina response (the fields scrape_all reads). -/
structure JinaData where
  title : String
  content : String
deriving Repr, DecidableEq

/-- len(content.split()): the number of maximal whitespace-free runs. -/
def word_count (content : String) : Nat :=
  ((content.toList.splitOnP Char.isWhitespace).filter (fun w => w ≠ [])).length

/-- The dict returned by JinaReader.read_url: either success true with content,
or success false with an error string (both except branches). -/
structure JinaResult where
  success : Bool
  url : String
  title : String
  content : String
  word_count : Nat
  error : String
deriving Repr, DecidableEq

/-- JinaReader.read_url with the HTTP call abstracted as an outcome; every
exception is caught inside, so the function is total and a failed fetch is a
record with success false carrying the error string. -/
def read_url (url : String) (outcome : Except String JinaData) : JinaResult :=
  match outcome with
  | .ok d =>
    { success := true, url := url, title := d.title, content := d.content,
      word_count := word_count d.content, error := "" }
  | .error e =>
    { success := false, url := url, title := "", content := "", word_count := 0, error := e }

/-- One entry of results content_fetched in scrape_all. -/
structure ContentItem where
  url : String
  source : String
  title : String
  content : String
  word_count : Nat
deriving Repr, DecidableEq

/-- The content-fetch loop of scrape_all (lines 160-178): read each selected
URL; successes are appended in selection order, failures are only printed. -/
def fetch_content (jina : String → Except String JinaData) (items : List UrlItem) :
    List ContentItem :=
  items.filterMap (fun it =>
    let c := read_url it.url (jina it.url)
    if c.success then
      some { url := it.url, source := it.source,
             title := if c.title ≠ "" then c.title else it.title,
             content := c.content, word_count := c.word_count }
    else none)

/-! ## FounderScraper.scrape_all (founder_scraper.py) -/

/-- The aggregate results dict of scrape_all (display-only total counters
omitted; they are the lengths of the per-source lists). -/
structure ScrapeResults where
  founder_name : String
  company_name : Option String
  exa_results : List RawResult
  youtube_results : List RawResult
  google_results : List RawResult
  content_fetched : List ContentItem
deriving Repr, DecidableEq

/-- FounderScraper.scrape_all with network effects abstracted: each source call
is an injected outcome (ok with its result list, or error for a raised
exception, which the per-source try blocks catch, leaving that source empty);
a source whose client was not configured is skipped entirely. -/
def scrape_all (founder_name : String) (company_name : Option String)
    (max_results_per_source : Nat) (fetch_flag : Bool)
    (youtubeConfigured googleConfigured : Bool)
    (exaOut ytOut gOut : Except String (List RawResult))
    (jina : String → Except String JinaData) : ScrapeResults :=
  let exaRes := exaOut.toOption.getD []
  let ytRes := if youtubeConfigured then ytOut.toOption.getD [] else []
  let gRes := if googleConfigured then gOut.toOption.getD [] else []
  { founder_name := founder_name, company_name := company_name,
    exa_results := exaRes, youtube_results := ytRes, google_results := gRes,
    content_fetched :=
      if fetch_flag then fetch_content jina (urls_to_fetch exaRes gRes max_results_per_source)
      else [] }

/-- All candidate-record URLs across the per-source lists of one aggregate
result. -/
def all_source_urls (r : ScrapeResults) : List String :=
  (r.exa_results ++ r.youtube_results ++ r.google_results).filterMap RawResult.url

/-! ## Enrichment pipeline (enrichment_pipeline.py, enrich_profile) -/

/-- The enriched_data dict of FounderEnrichmentPipeline.enrich_profile; none
models a per-source entry left at its empty initial value. -/
structure EnrichedData (L A Y G P : Type) where
  linkedin_full : Option L
  linkedin_posts : Option A
  youtube_results : Option Y
  google_results : Option G
  podcast_results : Option P
  sources_used : List String

/-- enrich_profile with each source call abstracted as an outcome.  Each block
is guarded by its client being configured, wrapped in its own try; on success
the data is stored and the source name appended to sources_used, on error the
entry keeps its empty initial value and the loop moves on. -/
def enrich_profile {L A Y G P : Type}
    (use_pb skip_pb has_url yt_conf g_conf p_conf : Bool)
    (li_profile : Except String L) (li_activity : Except String A)
    (yt : Except String Y) (g : Except String G) (p : Except String P) :
    EnrichedData L A Y G P :=
  let s0 : List String := []
  let pb := !skip_pb && use_pb && has_url
  let r1 := if pb then
      match li_profile with
      | .ok d => (some d, s0 ++ ["linkedin_profile"])
      | .error _ => (none, s0)
    else (none, s0)
  let r2 := if pb then
      match li_activity with
      | .ok d => (some d, r1.2 ++ ["linkedin_activity"])
      | .error _ => (none, r1.2)
    else (none, r1.2)
  let r3 := if yt_conf then
      match yt with
      | .ok d => (some d, r2.2 ++ ["youtube"])
      | .error _ => (none, r2.2)
    else (none, r2.2)
  let r4 := if g_conf then
      match g with
      | .ok d => (some d, r3.2 ++ ["google_search"])
      | .error _ => (none, r3.2)
    else (none, r3.2)
  let r5 := if p_conf then
      match p with
      | .ok d => (some d, r4.2 ++ ["podcasts"])
      | .error _ => (none, r4.2)
    else (none, r4.2)
  { linkedin_full := r1.1, linkedin_posts := r2.1, youtube_results := r3.1,
    google_results := r4.1, podcast_results := r5.1, sources_used := r5.2 }

/-! ## Client construction and credentials (exa.py, jina.py, youtube.py,
google_search.py, FounderScraper.__init__) -/

/-- The process environment as a key-value list. -/
abbrev Env := List (String × String)

/-- os.environ.get(k) followed by the Python truthiness test (if not key):
an unset key and a key set to the empty string both count as absent. -/
def truthyGet (env : Env) (k : String) : Option String :=
  match (env.find? (fun kv => kv.1 = k)).map (fun kv => kv.2) with
  | some v => if v = "" then none else some v
  | none => none

/-- ExaClient constructor: raises ValueError without EXA_API_KEY. -/
def exa_init (env : Env) : Except String String :=
  match truthyGet env "EXA_API_KEY" with
  | some k => .ok k
  | none => .error "EXA_API_KEY required"

/-- YouTubeClient constructor: raises ValueError without YOUTUBE_API_KEY. -/
def youtube_init (env : Env) : Except String String :=
  match truthyGet env "YOUTUBE_API_KEY" with
  | some k => .ok k
  | none => .error "YOUTUBE_API_KEY required"

/-- GoogleSearchClient constructor: needs GOOGLE_API_KEY and
GOOGLE_SEARCH_ENGINE_ID, raising on whichever is missing first. -/
def google_init (env : Env) : Except String (String × String) :=
  match truthyGet env "GOOGLE_API_KEY" with
  | none => .error "GOOGLE_API_KEY required"
  | some k =>
    match truthyGet env "GOOGLE_SEARCH_ENGINE_ID" with
    | none => .error "GOOGLE_SEARCH_ENGINE_ID required"
    | some cx => .ok (k, cx)

/-- JinaReader constructor: the key is optional; construction never fails. -/
def jina_init (env : Env) : Option String :=
  truthyGet env "JINA_API_KEY"

/-- The client fields of a constructed FounderScraper. -/
structure FounderScraperClients where
  exa_key : String
  jina_key : Option String
  youtube : Option String
  google : Option (String × String)
deriving Repr, DecidableEq

/-- FounderScraper.__init__: ExaClient and JinaReader are constructed outside
any try block (a missing Exa key propagates as ValueError); the YouTube and
Google constructors are wrapped in try-except ValueError and a failure leaves
that client as None (disabled). -/
def founder_scraper_init (env : Env) : Except String FounderScraperClients :=
  match exa_init env with
  | .error e => .error e
  | .ok k =>
    .ok { exa_key := k, jina_key := jina_init env,
          youtube := (youtube_init env).toOption,
          google := (google_init env).toOption }

/-! ## Batch driver (batch_scrape.py) and output paths -/

/-- A filesystem path as its list of components. -/
abbrev FsPath := List String

/-- Path(p).parent. -/
def parentDir (p : FsPath) : FsPath := p.dropLast

/-- Location of scripts/batch_scrape.py below the repository root. -/
def batch_scrape_file (root : FsPath) : FsPath := root ++ ["scripts", "batch_scrape.py"]

/-- Location of scripts/scrapers/apis/founder_scraper.py below the root. -/
def founder_scraper_file (root : FsPath) : FsPath :=
  root ++ ["scripts", "scrapers", "apis", "founder_scraper.py"]

/-- The slug of batch_scrape.py lines 77-78: lower-case, spaces to hyphens
(the replace pattern is the single space character, so it is a character map),
keep only alphanumerics and hyphens. -/
def slug_batch (fullName : String) : String :=
  let s := (pyLower fullName).toList.map (fun c => if c = ' ' then '-' else c)
  String.mk (s.filter (fun c => c.isAlphanum || c = '-'))

/-- The slug of founder_scraper.py lines 299-300 (scrape_and_save). -/
def slug_scraper (founderName : String) : String :=
  let s := (pyLower founderName).toList.map (fun c => if c = ' ' then '-' else c)
  String.mk (s.filter (fun c => c.isAlphanum || c = '-'))

/-- batch_scrape.py line 79: the artifact path checked before scraping,
Path(file).parent.parent / data / output / slug.md. -/
def batch_output_path (root : FsPath) (fullName : String) : FsPath :=
  parentDir (parentDir (batch_scrape_file root)) ++
    ["data", "output", slug_batch fullName ++ ".md"]

/-- founder_scraper.py lines 294-302: the default artifact path written by
scrape_and_save, Path(file).parent.parent.parent.parent / data / output /
slug.md. -/
def scraper_output_path (root : FsPath) (founderName : String) : FsPath :=
  parentDir (parentDir (parentDir (parentDir (founder_scraper_file root)))) ++
    ["data", "output", slug_scraper founderName ++ ".md"]

/-- One CSV row of the batch input. -/
structure Row where
  firstName : String
  lastName : String
  companyName : String
deriving Repr, DecidableEq

/-- batch_scrape.py line 69: full_name from the stripped name columns. -/
def full_name (r : Row) : String :=
  pyStrip (pyStrip r.firstName ++ " " ++ pyStrip r.lastName)

/-- The three counters of the batch run. -/
structure BatchStats where
  success : Nat
  failed : Nat
  skipped : Nat
deriving Repr, DecidableEq

/-- Processing of one CSV row in the batch loop (batch_scrape.py lines 64-101),
over an explicit filesystem (the list of existing artifact paths): empty name
is skipped; an existing artifact is skipped without touching the scraper; else
scrape_and_save runs, a success writing its artifact and any exception being
caught and counted as a failure. -/
def process_row (root : FsPath) (scrape : String → Except String Unit)
    (fs : List FsPath) (st : BatchStats) (row : Row) : BatchStats × List FsPath :=
  let name := full_name row
  if name = "" then ({ st with skipped := st.skipped + 1 }, fs)
  else if batch_output_path root name ∈ fs then
    ({ st with skipped := st.skipped + 1 }, fs)
  else
    match scrape name with
    | .ok _ => ({ st with success := st.success + 1 }, scraper_output_path root name :: fs)
    | .error _ => ({ st with failed := st.failed + 1 }, fs)

/-- The batch loop: rows with index below start_from are passed over silently
(plain continue, no counter), every other row goes through process_row, and the
loop always reaches the end of the list. -/
def batch_loop (root : FsPath) (scrape : String → Except String Unit) (startFrom : Nat) :
    List Row → Nat → List FsPath → BatchStats → BatchStats × List FsPath
  | [], _, fs, st => (st, fs)
  | row :: rest, i, fs, st =>
    if i < startFrom then batch_loop root scrape startFrom rest (i + 1) fs st
    else
      let p := process_row root scrape fs st row
      batch_loop root scrape startFrom rest (i + 1) p.2 p.1

/-- batch_scrape over a row list: zeroed counters, then the loop; the returned
stats are the ones printed in the end-of-run summary. -/
def batch_scrape (root : FsPath) (scrape : String → Except String Unit) (startFrom : Nat)
    (rows : List Row) (fs : List FsPath) : BatchStats × List FsPath :=
  batch_loop root scrape startFrom rows 0 fs ⟨0, 0, 0⟩

/-- The top of batch_scrape: FounderScraper() is constructed before the loop,
with no exception handler, so a construction error aborts the whole run. -/
def batch_scrape_run (env : Env) (root : FsPath) (scrape : String → Except String Unit)
    (startFrom : Nat) (rows : List Row) (fs : List FsPath) :
    Except String (BatchStats × List FsPath) :=
  match founder_scraper_init env with
  | .error e => .error e
  | .ok _ => .ok (batch_scrape root scrape startFrom rows fs)

/-! ## Theorems -/

/-- C1: when the relevance-filter backend response cannot be parsed (or the
call raised), filter_results returns exactly the input candidate list with no
annotations added, never the empty list on non-empty input; the except branch
makes it total, so it never raises. -/
theorem C1_filter_fallback (results : List SearchResult) (minScore : Int)
    (h : results ≠ []) :
    filter_results results minScore none = results ∧
      filter_results results minScore none ≠ [] := by
  have heq : filter_results results minScore none = results := by
    cases results with
    | nil => exact absurd rfl h
    | cons a l => rfl
  exact ⟨heq, fun hc => h (heq.symm.trans hc)⟩

/-- Witness for C1 at a concrete one-candidate list. -/
theorem C1_filter_fallback_witness :
    ([⟨"t", "d", "u", none, none, none⟩] : List SearchResult) ≠ [] ∧
      (filter_results [⟨"t", "d", "u", none, none, none⟩] 50 none
          = [⟨"t", "d", "u", none, none, none⟩] ∧
        filter_results [⟨"t", "d", "u", none, none, none⟩] 50 none ≠ []) :=
  ⟨by decide, C1_filter_fallback [⟨"t", "d", "u", none, none, none⟩] 50 (by decide)⟩

/-- C10: the slug computed by the batch driver skip check and the one computed
by scrape_and_save are the same function, and the artifact path the skip check
probes is exactly the default path scrape_and_save writes (both resolve to
root/data/output/slug.md); hence a row is skipped exactly when its own artifact
exists. -/
theorem C10_slug_path_agreement (root : FsPath) (name : String) :
    slug_batch name = slug_scraper name
    ∧ batch_output_path root name = scraper_output_path root name
    ∧ (∀ (scrape : String → Except String Unit) (fs : List FsPath) (st : BatchStats) (row : Row),
        full_name row ≠ "" →
          ((process_row root scrape fs st row).1.skipped = st.skipped + 1 ↔
            batch_output_path root (full_name row) ∈ fs)) := by
  have hdrop2 : ∀ (l : List String) (a b : String), ((l ++ [a, b]).dropLast).dropLast = l := by
    intro l a b
    have h : l ++ [a, b] = (l ++ [a]) ++ [b] := by simp
    rw [h, List.dropLast_concat, List.dropLast_concat]
  have hpath : batch_output_path root name = scraper_output_path root name := by
    unfold batch_output_path scraper_output_path batch_scrape_file founder_scraper_file parentDir
    have h4 : root ++ ["scripts", "scrapers", "apis", "founder_scraper.py"]
        = ((root ++ ["scripts", "scrapers"]) ++ ["apis"]) ++ ["founder_scraper.py"] := by simp
    rw [hdrop2, h4, List.dropLast_concat, List.dropLast_concat, hdrop2]
    rfl
  refine ⟨rfl, hpath, ?_⟩
  intro scrape fs st row hname
  unfold process_row
  rw [if_neg hname]
  by_cases hmem : batch_output_path root (full_name row) ∈ fs
  · rw [if_pos hmem]
    simpa using hmem
  · rw [if_neg hmem]
    cases hs : scrape (full_name row) with
    | ok u =>
      show st.skipped = st.skipped + 1 ↔ _
      exact ⟨fun hcon => absurd hcon (by omega), fun hcon => absurd hcon hmem⟩
    | error e =>
      show st.skipped = st.skipped + 1 ↔ _
      exact ⟨fun hcon => absurd hcon (by omega), fun hcon => absurd hcon hmem⟩

/-- C7: when the expected artifact for a row's full-name slug already exists,
the batch driver increments only the skip counter, leaves the filesystem
unchanged, and never consults the scraper (the result is the same for every
scrape function). -/
theorem C7_skip_existing (root : FsPath) (scrape : String → Except String Unit)
    (fs : List FsPath) (st : BatchStats) (row : Row)
    (hname : full_name row ≠ "")
    (hex : batch_output_path root (full_name row) ∈ fs) :
    process_row root scrape fs st row = ({ st with skipped := st.skipped + 1 }, fs)
    ∧ ∀ scrape2 : String → Except String Unit,
        process_row root scrape2 fs st row = process_row root scrape fs st row := by
  have h1 : ∀ s2 : String → Except String Unit,
      process_row root s2 fs st row = ({ st with skipped := st.skipped + 1 }, fs) := by
    intro s2
    unfold process_row
    rw [if_neg hname, if_pos hex]
  exact ⟨h1 scrape, fun s2 => (h1 s2).trans (h1 scrape).symm⟩

/-- Witness for C7: the artifact for Ada Lovelace exists, so the row is
skipped. -/
theorem C7_skip_existing_witness :
    full_name ⟨"Ada", "Lovelace", "X"⟩ ≠ ""
    ∧ batch_output_path [] (full_name ⟨"Ada", "Lovelace", "X"⟩)
        ∈ [(["data", "output", "ada-lovelace.md"] : FsPath)]
    ∧ (process_row [] (fun _ => Except.ok ()) [["data", "output", "ada-lovelace.md"]]
          ⟨0, 0, 0⟩ ⟨"Ada", "Lovelace", "X"⟩
        = (⟨0, 0, 1⟩, [["data", "output", "ada-lovelace.md"]])
      ∧ ∀ scrape2 : String → Except String Unit,
          process_row [] scrape2 [["data", "output", "ada-lovelace.md"]]
              ⟨0, 0, 0⟩ ⟨"Ada", "Lovelace", "X"⟩
            = process_row [] (fun _ => Except.ok ()) [["data", "output", "ada-lovelace.md"]]
                ⟨0, 0, 0⟩ ⟨"Ada", "Lovelace", "X"⟩) :=
  ⟨by decide, by decide,
    C7_skip_existing [] (fun _ => Except.ok ()) [["data", "output", "ada-lovelace.md"]]
      ⟨0, 0, 0⟩ ⟨"Ada", "Lovelace", "X"⟩ (by decide) (by decide)⟩

/-- C9 counterexample: with EXA_API_KEY absent from the environment the claim
fails — FounderScraper construction raises out of the batch driver instead of
disabling the exa source and continuing: the whole run errors even though rows
were pending. -/
theorem C9_counterexample :
    founder_scraper_init [] = Except.error "EXA_API_KEY required"
    ∧ batch_scrape_run [] [] (fun _ => Except.ok ()) 0 [⟨"Ada", "Lovelace", "X"⟩] []
        = Except.error "EXA_API_KEY required" :=
  ⟨rfl, rfl⟩

/-- C9 amended: every key-requiring client fails at construction time, before
any query; the caller disables-and-continues only for the optional YouTube and
Google clients (whose absence leaves the client None and the source never
queried), while a missing EXA_API_KEY propagates out of FounderScraper
construction and aborts the run. -/
theorem C9_missing_key_handling (env : Env) :
    (truthyGet env "YOUTUBE_API_KEY" = none →
      youtube_init env = Except.error "YOUTUBE_API_KEY required")
    ∧ (truthyGet env "GOOGLE_API_KEY" = none →
      google_init env = Except.error "GOOGLE_API_KEY required")
    ∧ (truthyGet env "EXA_API_KEY" = none →
      founder_scraper_init env = Except.error "EXA_API_KEY required")
    ∧ (∀ c, founder_scraper_init env = Except.ok c →
        (c.youtube = none ↔ truthyGet env "YOUTUBE_API_KEY" = none))
    ∧ (∀ fn cn m fc gC exaOut ytOut1 ytOut2 gOut jina,
        scrape_all fn cn m fc false gC exaOut ytOut1 gOut jina
          = scrape_all fn cn m fc false gC exaOut ytOut2 gOut jina)
    ∧ (∀ fn cn m fc ytC exaOut ytOut gOut1 gOut2 jina,
        scrape_all fn cn m fc ytC false exaOut ytOut gOut1 jina
          = scrape_all fn cn m fc ytC false exaOut ytOut gOut2 jina) := by
  refine ⟨?_, ?_, ?_, ?_, ?_, ?_⟩
  · intro h; unfold youtube_init; rw [h]
  · intro h; unfold google_init; rw [h]
  · intro h; unfold founder_scraper_init exa_init; rw [h]
  · intro c hc
    unfold founder_scraper_init at hc
    cases hx : exa_init env with
    | error e => rw [hx] at hc; exact absurd hc (by simp)
    | ok k =>
      rw [hx] at hc
      have hc2 := Except.ok.inj hc
      rw [← hc2]
      cases hy : truthyGet env "YOUTUBE_API_KEY" <;>
        simp [youtube_init, hy, Except.toOption]
  · intro fn cn m fc gC exaOut ytOut1 ytOut2 gOut jina; rfl
  · intro fn cn m fc ytC exaOut ytOut gOut1 gOut2 jina; rfl

/-- Every processed row bumps exactly one of the three counters. -/
theorem process_row_counter_sum (root : FsPath) (scrape : String → Except String Unit)
    (fs : List FsPath) (st : BatchStats) (row : Row) :
    (process_row root scrape fs st row).1.success + (process_row root scrape fs st row).1.failed
        + (process_row root scrape fs st row).1.skipped
      = st.success + st.failed + st.skipped + 1 := by
  unfold process_row
  by_cases h1 : full_name row = ""
  · rw [if_pos h1]
    show st.success + st.failed + (st.skipped + 1) = _
    omega
  · rw [if_neg h1]
    by_cases h2 : batch_output_path root (full_name row) ∈ fs
    · rw [if_pos h2]
      show st.success + st.failed + (st.skipped + 1) = _
      omega
    · rw [if_neg h2]
      cases scrape (full_name row) with
      | ok u =>
        show st.success + 1 + st.failed + st.skipped = _
        omega
      | error err =>
        show st.success + (st.failed + 1) + st.skipped = _
        omega

/-- The batch loop visits every row from the start index on: the counters add
up to the number of rows processed. -/
theorem batch_loop_counter_sum (root : FsPath) (scrape : String → Except String Unit)
    (startFrom : Nat) :
    ∀ (rows : List Row) (i : Nat) (fs : List FsPath) (st : BatchStats), startFrom ≤ i →
      (batch_loop root scrape startFrom rows i fs st).1.success
          + (batch_loop root scrape startFrom rows i fs st).1.failed
          + (batch_loop root scrape startFrom rows i fs st).1.skipped
        = st.success + st.failed + st.skipped + rows.length := by
  intro rows
  induction rows with
  | nil =>
    intro i fs st hi
    simp [batch_loop]
  | cons row rest ih =>
    intro i fs st hi
    simp only [batch_loop]
    rw [if_neg (Nat.not_lt.mpr hi)]
    rw [ih (i + 1) _ _ (Nat.le_trans hi (Nat.le_succ i))]
    have hsum := process_row_counter_sum root scrape fs st row
    simp only [List.length_cons]
    omega

/-- C8: an exception raised while scraping one identity is caught and counted
as one failure with everything else untouched, and the loop always reaches the
end of the row list: the final counters printed in the summary add up to the
number of rows, so no single failure terminates the batch. -/
theorem C8_batch_failure_isolation (root : FsPath) (scrape : String → Except String Unit)
    (fs : List FsPath) (st : BatchStats) (row : Row) (e : String)
    (hname : full_name row ≠ "")
    (hnew : batch_output_path root (full_name row) ∉ fs)
    (hs : scrape (full_name row) = Except.error e) :
    process_row root scrape fs st row = ({ st with failed := st.failed + 1 }, fs)
    ∧ (∀ (rows : List Row) (fs0 : List FsPath),
        (batch_scrape root scrape 0 rows fs0).1.success
            + (batch_scrape root scrape 0 rows fs0).1.failed
            + (batch_scrape root scrape 0 rows fs0).1.skipped
          = rows.length) := by
  constructor
  · unfold process_row
    rw [if_neg hname, if_neg hnew, hs]
  · intro rows fs0
    have h := batch_loop_counter_sum root scrape 0 rows 0 fs0 ⟨0, 0, 0⟩ (Nat.le_refl 0)
    simpa [batch_scrape] using h

/-- Witness for C8: a scraper that always raises produces one failure and the
counters of a two-row batch still add up to two. -/
theorem C8_batch_failure_isolation_witness :
    full_name ⟨"Ada", "Lovelace", "X"⟩ ≠ ""
    ∧ batch_output_path [] (full_name ⟨"Ada", "Lovelace", "X"⟩) ∉ ([] : List FsPath)
    ∧ (fun _ : String => (Except.error "boom" : Except String Unit)) (full_name ⟨"Ada", "Lovelace", "X"⟩)
        = Except.error "boom"
    ∧ (process_row [] (fun _ => Except.error "boom") [] ⟨0, 0, 0⟩ ⟨"Ada", "Lovelace", "X"⟩
          = (⟨0, 1, 0⟩, [])
      ∧ ∀ (rows : List Row) (fs0 : List FsPath),
          (batch_scrape [] (fun _ => Except.error "boom") 0 rows fs0).1.success
              + (batch_scrape [] (fun _ => Except.error "boom") 0 rows fs0).1.failed
              + (batch_scrape [] (fun _ => Except.error "boom") 0 rows fs0).1.skipped
            = rows.length) :=
  ⟨by decide, by decide, rfl,
    C8_batch_failure_isolation [] (fun _ => Except.error "boom") [] ⟨0, 0, 0⟩
      ⟨"Ada", "Lovelace", "X"⟩ "boom" (by decide) (by decide) rfl⟩

/-- C4: when the YouTube call raises while Google and podcasts succeed, the
pipeline catches the error per source: the youtube entry keeps its empty
initial value and youtube is excluded from sources_used, the successful
sources keep their data and appear in sources_used, and the run returns
normally; likewise an exa failure inside scrape_all leaves exa empty and the
google results intact. -/
theorem C4_per_source_isolation {L A Y G P : Type}
    (use_pb skip_pb has_url : Bool)
    (li_profile : Except String L) (li_activity : Except String A)
    (yt : Except String Y) (g : Except String G) (p : Except String P)
    (e : String) (gd : G) (pd : P)
    (hyt : yt = Except.error e) (hg : g = Except.ok gd) (hp : p = Except.ok pd) :
    (enrich_profile use_pb skip_pb has_url true true true li_profile li_activity yt g p).youtube_results
        = none
    ∧ "youtube" ∉ (enrich_profile use_pb skip_pb has_url true true true li_profile li_activity
        yt g p).sources_used
    ∧ (enrich_profile use_pb skip_pb has_url true true true li_profile li_activity yt g p).google_results
        = some gd
    ∧ "google_search" ∈ (enrich_profile use_pb skip_pb has_url true true true li_profile li_activity
        yt g p).sources_used
    ∧ (enrich_profile use_pb skip_pb has_url true true true li_profile li_activity yt g p).podcast_results
        = some pd
    ∧ "podcasts" ∈ (enrich_profile use_pb skip_pb has_url true true true li_profile li_activity
        yt g p).sources_used
    ∧ (∀ (fn : String) (cn : Option String) (m : Nat) (fc ytC : Bool) (gRes : List RawResult)
        (e2 : String) (ytOut : Except String (List RawResult))
        (jina : String → Except String JinaData),
        (scrape_all fn cn m fc ytC true (Except.error e2) ytOut (Except.ok gRes) jina).exa_results = []
        ∧ (scrape_all fn cn m fc ytC true (Except.error e2) ytOut (Except.ok gRes) jina).google_results
            = gRes) := by
  subst hyt; subst hg; subst hp
  refine ⟨rfl, ?_, rfl, ?_, rfl, ?_, ?_⟩
  · by_cases hpb : (!skip_pb && use_pb && has_url) = true <;>
      cases li_profile <;> cases li_activity <;>
      simp [enrich_profile, hpb]
  · by_cases hpb : (!skip_pb && use_pb && has_url) = true <;>
      cases li_profile <;> cases li_activity <;>
      simp [enrich_profile, hpb]
  · by_cases hpb : (!skip_pb && use_pb && has_url) = true <;>
      cases li_profile <;> cases li_activity <;>
      simp [enrich_profile, hpb]
  · intro fn cn m fc ytC gRes e2 ytOut jina
    exact ⟨rfl, rfl⟩

/-- Witness for C4 at concrete outcomes. -/
theorem C4_per_source_isolation_witness :
    (Except.error "boom" : Except String Unit) = Except.error "boom"
    ∧ (Except.ok () : Except String Unit) = Except.ok ()
    ∧ (Except.ok () : Except String Unit) = Except.ok ()
    ∧ ((enrich_profile false false false true true true (Except.ok ()) (Except.ok ())
          (Except.error "boom" : Except String Unit) (Except.ok ()) (Except.ok ())).youtube_results
            = none
      ∧ "youtube" ∉ (enrich_profile false false false true true true (Except.ok ()) (Except.ok ())
          (Except.error "boom" : Except String Unit) (Except.ok ()) (Except.ok ())).sources_used
      ∧ (enrich_profile false false false true true true (Except.ok ()) (Except.ok ())
          (Except.error "boom" : Except String Unit) (Except.ok ()) (Except.ok ())).google_results
            = some ()
      ∧ "google_search" ∈ (enrich_profile false false false true true true (Except.ok ()) (Except.ok ())
          (Except.error "boom" : Except String Unit) (Except.ok ()) (Except.ok ())).sources_used
      ∧ (enrich_profile false false false true true true (Except.ok ()) (Except.ok ())
          (Except.error "boom" : Except String Unit) (Except.ok ()) (Except.ok ())).podcast_results
            = some ()
      ∧ "podcasts" ∈ (enrich_profile false false false true true true (Except.ok ()) (Except.ok ())
          (Except.error "boom" : Except String Unit) (Except.ok ()) (Except.ok ())).sources_used
      ∧ (∀ (fn : String) (cn : Option String) (m : Nat) (fc ytC : Bool) (gRes : List RawResult)
          (e2 : String) (ytOut : Except String (List RawResult))
          (jina : String → Except String JinaData),
          (scrape_all fn cn m fc ytC true (Except.error e2) ytOut (Except.ok gRes) jina).exa_results = []
          ∧ (scrape_all fn cn m fc ytC true (Except.error e2) ytOut (Except.ok gRes) jina).google_results
              = gRes)) :=
  ⟨rfl, rfl, rfl,
    C4_per_source_isolation false false false (Except.ok ()) (Except.ok ())
      (Except.error "boom") (Except.ok ()) (Except.ok ()) "boom" () () rfl rfl rfl⟩

/-- One step of the content-fetch loop: a successful fetch prepends its record,
a failure contributes nothing. -/
theorem fetch_content_cons (jina : String → Except String JinaData) (it : UrlItem)
    (rest : List UrlItem) :
    fetch_content jina (it :: rest)
      = match jina it.url with
        | .ok d =>
          { url := it.url, source := it.source,
            title := if d.title ≠ "" then d.title else it.title,
            content := d.content, word_count := word_count d.content }
            :: fetch_content jina rest
        | .error _ => fetch_content jina rest := by
  cases hj : jina it.url <;> simp [fetch_content, read_url, hj]

/-- Filtering drops a head the predicate rejects. -/
theorem filter_cons_false {α : Type} (p : α → Bool) (a : α) (l : List α) (h : p a = false) :
    List.filter p (a :: l) = List.filter p l := by
  simp [List.filter_cons, h]

/-- The urls of the fetched content form a subsequence of the selected urls:
extraction is per-URL and order-preserving. -/
theorem fetch_content_urls_sublist (jina : String → Except String JinaData)
    (items : List UrlItem) :
    List.Sublist ((fetch_content jina items).map ContentItem.url) (items.map UrlItem.url) := by
  induction items with
  | nil => simp [fetch_content]
  | cons it rest ih =>
    rw [fetch_content_cons]
    cases hj : jina it.url with
    | ok d =>
      rw [List.map_cons, List.map_cons]
      exact List.Sublist.cons₂ _ ih
    | error err =>
      rw [List.map_cons]
      exact List.Sublist.cons _ ih

/-- Changing the fetch outcome of one URL leaves the content fetched for every
other URL unchanged. -/
theorem fetch_content_agree (u : String) (jina1 jina2 : String → Except String JinaData)
    (hagree : ∀ v, v ≠ u → jina1 v = jina2 v) :
    ∀ items : List UrlItem,
      (fetch_content jina1 items).filter (fun c => c.url ≠ u)
        = (fetch_content jina2 items).filter (fun c => c.url ≠ u) := by
  intro items
  induction items with
  | nil => rfl
  | cons it rest ih =>
    rw [fetch_content_cons, fetch_content_cons]
    by_cases hu : it.url = u
    · cases hj1 : jina1 it.url with
      | ok d1 =>
        rw [filter_cons_false _ _ _ (by simp [hu])]
        cases hj2 : jina2 it.url with
        | ok d2 =>
          rw [filter_cons_false _ _ _ (by simp [hu])]
          exact ih
        | error e2 => exact ih
      | error e1 =>
        cases hj2 : jina2 it.url with
        | ok d2 =>
          rw [filter_cons_false _ _ _ (by simp [hu])]
          exact ih
        | error e2 => exact ih
    · have hj : jina1 it.url = jina2 it.url := hagree it.url hu
      rw [hj]
      cases hj2 : jina2 it.url with
      | ok d2 =>
        rw [List.filter_cons, List.filter_cons, ih]
      | error e2 => exact ih

/-- C6: a failed fetch yields a per-URL record with success false carrying the
error string (read_url catches everything, so nothing escapes the call);
successful extractions appear in selection order as a subsequence of the
selected URLs; and the outcome at one URL does not affect the content fetched
for any other URL. -/
theorem C6_extraction_isolation (u e : String)
    (jina1 jina2 : String → Except String JinaData) (items : List UrlItem)
    (hagree : ∀ v, v ≠ u → jina1 v = jina2 v) :
    (read_url u (Except.error e)).success = false
    ∧ (read_url u (Except.error e)).error = e
    ∧ List.Sublist ((fetch_content jina1 items).map ContentItem.url) (items.map UrlItem.url)
    ∧ (fetch_content jina1 items).filter (fun c => c.url ≠ u)
        = (fetch_content jina2 items).filter (fun c => c.url ≠ u) :=
  ⟨rfl, rfl, fetch_content_urls_sublist jina1 items,
    fetch_content_agree u jina1 jina2 hagree items⟩

/-- Witness for C6: two fetch oracles differing only at u0 give the same
records away from u0. -/
theorem C6_extraction_isolation_witness :
    (∀ v, v ≠ "u0" →
      (fun _ : String => (Except.error "x" : Except String JinaData)) v
        = (fun v : String =>
            if v = "u0" then (Except.ok ⟨"t", "c"⟩ : Except String JinaData)
            else Except.error "x") v)
    ∧ ((read_url "u0" (Except.error "boom")).success = false
      ∧ (read_url "u0" (Except.error "boom")).error = "boom"
      ∧ List.Sublist
          ((fetch_content (fun _ => Except.error "x")
              [⟨"u0", "exa", "T"⟩, ⟨"u1", "google", "S"⟩]).map ContentItem.url)
          (([⟨"u0", "exa", "T"⟩, ⟨"u1", "google", "S"⟩] : List UrlItem).map UrlItem.url)
      ∧ (fetch_content (fun _ => Except.error "x")
            [⟨"u0", "exa", "T"⟩, ⟨"u1", "google", "S"⟩]).filter (fun c => c.url ≠ "u0")
          = (fetch_content
              (fun v => if v = "u0" then Except.ok ⟨"t", "c"⟩ else Except.error "x")
              [⟨"u0", "exa", "T"⟩, ⟨"u1", "google", "S"⟩]).filter (fun c => c.url ≠ "u0")) :=
  ⟨fun v hv => by simp [hv],
    C6_extraction_isolation "u0" "boom" (fun _ => Except.error "x")
      (fun v => if v = "u0" then Except.ok ⟨"t", "c"⟩ else Except.error "x")
      [⟨"u0", "exa", "T"⟩, ⟨"u1", "google", "S"⟩] (fun v hv => by simp [hv])⟩

/-- Annotating and then thresholding is what the single merge loop computes. -/
theorem mergeEvals_eq_annotate (results : List SearchResult) (minScore : Int) :
    ∀ evals : List EvalItem,
      mergeEvals results minScore evals
        = (annotate_all results evals).map
            (fun l => l.filter (fun r => minScore ≤ scoreKey r)) := by
  intro evals
  induction evals with
  | nil => rfl
  | cons e rest ih =>
    simp only [mergeEvals, annotate_all]
    by_cases hidx : e.index < (results.length : Int)
    · rw [if_pos hidx, if_pos hidx]
      cases hp : pyGet results e.index with
      | none => rfl
      | some r =>
        rw [ih]
        cases ha : annotate_all results rest with
        | none => rfl
        | some tl =>
          by_cases hsc : minScore ≤ e.relevance_score
          · simp [List.filter_cons, scoreKey, applyEval, hsc]
          · simp [List.filter_cons, scoreKey, applyEval, hsc]
    · rw [if_neg hidx, if_neg hidx]
      exact ih

/-- Every annotated record is some input record overwritten by one of the
parsed evaluations: in particular it carries an assigned score. -/
theorem annotate_all_mem (results : List SearchResult) :
    ∀ (evals : List EvalItem) (l : List SearchResult),
      annotate_all results evals = some l →
      ∀ x ∈ l, ∃ e r0, e ∈ evals ∧ x = applyEval r0 e := by
  intro evals
  induction evals with
  | nil =>
    intro l hl x hx
    obtain rfl : ([] : List SearchResult) = l := Option.some.inj hl
    simp at hx
  | cons e rest ih =>
    intro l hl x hx
    simp only [annotate_all] at hl
    by_cases hidx : e.index < (results.length : Int)
    · rw [if_pos hidx] at hl
      cases hp : pyGet results e.index with
      | none =>
        rw [hp] at hl
        exact absurd hl (by simp)
      | some r =>
        rw [hp] at hl
        cases ha : annotate_all results rest with
        | none =>
          rw [ha] at hl
          exact absurd hl (by simp)
        | some tl =>
          rw [ha] at hl
          simp only [Option.map_some'] at hl
          obtain rfl : applyEval r e :: tl = l := Option.some.inj hl
          cases hx with
          | head => exact ⟨e, r, List.mem_cons_self e rest, rfl⟩
          | tail _ hx2 =>
            obtain ⟨e2, r0, he2, hxe⟩ := ih tl ha x hx2
            exact ⟨e2, r0, List.mem_cons_of_mem e he2, hxe⟩
    · rw [if_neg hidx] at hl
      obtain ⟨e2, r0, he2, hxe⟩ := ih l hl x hx
      exact ⟨e2, r0, List.mem_cons_of_mem e he2, hxe⟩

/-- Over an empty candidate list a parsed annotation is empty. -/
theorem annotate_all_nil_results :
    ∀ (evals : List EvalItem) (l : List SearchResult),
      annotate_all [] evals = some l → l = [] := by
  intro evals
  induction evals with
  | nil =>
    intro l hl
    exact (Option.some.inj hl).symm
  | cons e rest ih =>
    intro l hl
    simp only [annotate_all] at hl
    by_cases hidx : e.index < ((List.length ([] : List SearchResult) : Int)) <;>
      [rw [if_pos hidx] at hl; rw [if_neg hidx] at hl]
    · have hp : pyGet [] e.index = none := by
        unfold pyGet
        have h0 : ¬ (0 ≤ e.index) := by
          simp only [List.length_nil, Int.natCast_zero] at hidx
          omega
        rw [if_neg h0, if_neg (by simp only [List.length_nil, Int.natCast_zero]; omega)]
      rw [hp] at hl
      exact absurd hl (by simp)
    · exact ih l hl

/-- Stable insertion keeps the multiset. -/
theorem insertDesc_perm (r : SearchResult) :
    ∀ l : List SearchResult, List.Perm (insertDesc r l) (r :: l) := by
  intro l
  induction l with
  | nil => exact List.Perm.refl _
  | cons x xs ih =>
    simp only [insertDesc]
    by_cases h : scoreKey x < scoreKey r
    · rw [if_pos h]
    · rw [if_neg h]
      exact (ih.cons x).trans (List.Perm.swap r x xs)

/-- The insertion-fold is a permutation of the accumulator and the input. -/
theorem foldl_insertDesc_perm :
    ∀ (l acc : List SearchResult),
      List.Perm (l.foldl (fun a r => insertDesc r a) acc) (acc ++ l) := by
  intro l
  induction l with
  | nil => intro acc; simp
  | cons x xs ih =>
    intro acc
    simp only [List.foldl_cons]
    have h2 : List.Perm (insertDesc x acc ++ xs) ((x :: acc) ++ xs) :=
      (insertDesc_perm x acc).append_right xs
    have h3 : List.Perm ((x :: acc) ++ xs) (acc ++ x :: xs) := by
      simp only [List.cons_append]
      exact List.perm_middle.symm
    exact (ih (insertDesc x acc)).trans (h2.trans h3)

/-- The sort of filter_results permutes its input. -/
theorem sortByScoreDesc_perm (l : List SearchResult) :
    List.Perm (sortByScoreDesc l) l := by
  have h := foldl_insertDesc_perm l []
  simpa [sortByScoreDesc] using h

/-- Stable insertion preserves descending sortedness. -/
theorem insertDesc_sorted (r : SearchResult) :
    ∀ l, DescendingByScore l → DescendingByScore (insertDesc r l) := by
  intro l
  induction l with
  | nil => intro _; simp [insertDesc]
  | cons x xs ih =>
    intro h
    obtain ⟨hx, hxs⟩ := List.pairwise_cons.mp h
    simp only [insertDesc]
    by_cases hlt : scoreKey x < scoreKey r
    · rw [if_pos hlt]
      refine List.pairwise_cons.mpr ⟨?_, h⟩
      intro y hy
      rcases List.mem_cons.mp hy with rfl | hy2
      · exact Int.le_of_lt hlt
      · exact le_trans (hx y hy2) (Int.le_of_lt hlt)
    · rw [if_neg hlt]
      refine List.pairwise_cons.mpr ⟨?_, ih hxs⟩
      intro y hy
      have hy2 := (insertDesc_perm r xs).mem_iff.mp hy
      rcases List.mem_cons.mp hy2 with rfl | hy3
      · exact Int.not_lt.mp hlt
      · exact hx y hy3

/-- The insertion-fold sorts. -/
theorem foldl_insertDesc_sorted :
    ∀ (l acc : List SearchResult), DescendingByScore acc →
      DescendingByScore (l.foldl (fun a r => insertDesc r a) acc) := by
  intro l
  induction l with
  | nil => intro acc h; exact h
  | cons x xs ih =>
    intro acc h
    simp only [List.foldl_cons]
    exact ih _ (insertDesc_sorted x acc h)

/-- filter_results returns a descending-sorted list. -/
theorem sortByScoreDesc_sorted (l : List SearchResult) :
    DescendingByScore (sortByScoreDesc l) :=
  foldl_insertDesc_sorted l [] List.Pairwise.nil

/-- C2 counterexample: the response parses into the verdict schema, yet with
the verdict index -2 against a one-candidate list the Python guard idx lt len
passes, indexing raises IndexError inside the try, and the whole call falls
back to returning the candidate unscored — not the empty set of candidates
with assigned score at least 0 that the claim requires, and carrying no
relevance_score at all. -/
theorem C2_counterexample :
    filter_results [⟨"t", "d", "https://e.com/a", none, none, none⟩] 0
        (some [⟨-2, 90, "interview", "r"⟩])
      = [⟨"t", "d", "https://e.com/a", none, none, none⟩]
    ∧ ∃ x ∈ filter_results [⟨"t", "d", "https://e.com/a", none, none, none⟩] 0
        (some [⟨-2, 90, "interview", "r"⟩]), x.relevance_score = none := by
  constructor
  · decide
  · exact ⟨⟨"t", "d", "https://e.com/a", none, none, none⟩, by decide, rfl⟩

/-- C2 amended: whenever the annotation pass resolves every verdict index
(in particular whenever every index is in range, no IndexError fallback), the
returned sequence is exactly the annotated candidates whose assigned score
reaches min_score — as a permutation of that filtered set — each returned
record carries an assigned score at least min_score, the output is sorted in
descending score order, and raising min_score can only shrink or preserve the
returned set. -/
theorem C2_score_threshold_law (results : List SearchResult) (evals : List EvalItem)
    (minScore : Int) (annotated : List SearchResult)
    (h : annotate_all results evals = some annotated) :
    List.Perm (filter_results results minScore (some evals))
        (annotated.filter (fun r => minScore ≤ scoreKey r))
    ∧ (∀ x ∈ filter_results results minScore (some evals),
        ∃ s : Int, x.relevance_score = some s ∧ minScore ≤ s)
    ∧ DescendingByScore (filter_results results minScore (some evals))
    ∧ (∀ m1 m2 : Int, m1 ≤ m2 →
        ∀ x ∈ filter_results results m2 (some evals),
          x ∈ filter_results results m1 (some evals)) := by
  cases results with
  | nil =>
    obtain rfl : annotated = [] := annotate_all_nil_results evals annotated h
    refine ⟨by simp [filter_results], ?_, ?_, ?_⟩
    · intro x hx
      simp [filter_results] at hx
    · simp [filter_results]
    · intro m1 m2 hm x hx
      simp [filter_results] at hx
  | cons a l =>
    have hfr : ∀ m : Int, filter_results (a :: l) m (some evals)
        = sortByScoreDesc (annotated.filter (fun r => m ≤ scoreKey r)) := by
      intro m
      have hshape : filter_results (a :: l) m (some evals)
          = match mergeEvals (a :: l) m evals with
            | none => a :: l
            | some filtered => sortByScoreDesc filtered := rfl
      rw [hshape, mergeEvals_eq_annotate, h]
      rfl
    have hperm : ∀ m : Int,
        List.Perm (filter_results (a :: l) m (some evals))
          (annotated.filter (fun r => m ≤ scoreKey r)) := by
      intro m
      rw [hfr m]
      exact sortByScoreDesc_perm _
    refine ⟨hperm minScore, ?_, ?_, ?_⟩
    · intro x hx
      have hx2 := (hperm minScore).mem_iff.mp hx
      have hx3 := List.mem_filter.mp hx2
      obtain ⟨e, r0, he, rfl⟩ := annotate_all_mem (a :: l) evals annotated h x hx3.1
      refine ⟨e.relevance_score, rfl, ?_⟩
      have hsc := hx3.2
      simpa [scoreKey, applyEval] using hsc
    · rw [hfr minScore]
      exact sortByScoreDesc_sorted _
    · intro m1 m2 hm x hx
      have hx2 := (hperm m2).mem_iff.mp hx
      have hx3 := List.mem_filter.mp hx2
      refine (hperm m1).mem_iff.mpr (List.mem_filter.mpr ⟨hx3.1, ?_⟩)
      have h2 : m2 ≤ scoreKey x := by simpa using hx3.2
      simpa using le_trans hm h2

/-- Witness for C2 at a concrete two-candidate call with threshold 50. -/
theorem C2_score_threshold_law_witness :
    annotate_all [⟨"a", "", "u1", none, none, none⟩, ⟨"b", "", "u2", none, none, none⟩]
        [⟨0, 80, "interview", ""⟩, ⟨1, 30, "mention", ""⟩]
      = some [⟨"a", "", "u1", some 80, some "interview", some ""⟩,
              ⟨"b", "", "u2", some 30, some "mention", some ""⟩]
    ∧ (List.Perm
          (filter_results [⟨"a", "", "u1", none, none, none⟩, ⟨"b", "", "u2", none, none, none⟩]
            50 (some [⟨0, 80, "interview", ""⟩, ⟨1, 30, "mention", ""⟩]))
          (([⟨"a", "", "u1", some 80, some "interview", some ""⟩,
             ⟨"b", "", "u2", some 30, some "mention", some ""⟩] : List SearchResult).filter
            (fun r => 50 ≤ scoreKey r))
      ∧ (∀ x ∈ filter_results [⟨"a", "", "u1", none, none, none⟩, ⟨"b", "", "u2", none, none, none⟩]
            50 (some [⟨0, 80, "interview", ""⟩, ⟨1, 30, "mention", ""⟩]),
          ∃ s : Int, x.relevance_score = some s ∧ 50 ≤ s)
      ∧ DescendingByScore
          (filter_results [⟨"a", "", "u1", none, none, none⟩, ⟨"b", "", "u2", none, none, none⟩]
            50 (some [⟨0, 80, "interview", ""⟩, ⟨1, 30, "mention", ""⟩]))
      ∧ (∀ m1 m2 : Int, m1 ≤ m2 →
          ∀ x ∈ filter_results [⟨"a", "", "u1", none, none, none⟩, ⟨"b", "", "u2", none, none, none⟩]
              m2 (some [⟨0, 80, "interview", ""⟩, ⟨1, 30, "mention", ""⟩]),
            x ∈ filter_results [⟨"a", "", "u1", none, none, none⟩, ⟨"b", "", "u2", none, none, none⟩]
              m1 (some [⟨0, 80, "interview", ""⟩, ⟨1, 30, "mention", ""⟩]))) :=
  ⟨by decide,
    C2_score_threshold_law [⟨"a", "", "u1", none, none, none⟩, ⟨"b", "", "u2", none, none, none⟩]
      [⟨0, 80, "interview", ""⟩, ⟨1, 30, "mention", ""⟩] 50
      [⟨"a", "", "u1", some 80, some "interview", some ""⟩,
       ⟨"b", "", "u2", some 30, some "mention", some ""⟩] (by decide)⟩

/-- The collection loop only grows the seen set. -/
theorem collect_urls_seen_subset (src : String) (f : Bool) :
    ∀ (rs : List RawResult) (seen : List String) (u : String),
      u ∈ seen → u ∈ (collect_urls src f rs seen).2 := by
  intro rs
  induction rs with
  | nil =>
    intro seen u hu
    simpa [collect_urls] using hu
  | cons r rest ih =>
    intro seen u hu
    cases hr : r.url with
    | none =>
      simp only [collect_urls, hr]
      exact ih seen u hu
    | some v =>
      simp only [collect_urls, hr]
      by_cases h1 : v = ""
      · rw [if_pos h1]
        exact ih seen u hu
      · rw [if_neg h1]
        by_cases h2 : v ∈ seen
        · rw [if_pos h2]
          exact ih seen u hu
        · rw [if_neg h2]
          by_cases h3 : (f && hasAnyDomain v skip_domains) = true
          · rw [if_pos h3]
            exact ih seen u hu
          · rw [if_neg h3]
            exact ih (v :: seen) u (List.mem_cons_of_mem v hu)

/-- Every collected item has the loop's source tag, a truthy url that was
fresh, gets recorded in the final seen set, comes from some input record, and
(in the google loop) matches no skip domain. -/
theorem collect_urls_mem (src : String) (f : Bool) :
    ∀ (rs : List RawResult) (seen : List String) (it : UrlItem),
      it ∈ (collect_urls src f rs seen).1 →
      it.source = src ∧ it.url ≠ "" ∧ it.url ∉ seen
        ∧ it.url ∈ (collect_urls src f rs seen).2
        ∧ (∃ r, r ∈ rs ∧ r.url = some it.url)
        ∧ (f = true → hasAnyDomain it.url skip_domains = false) := by
  intro rs
  induction rs with
  | nil =>
    intro seen it hit
    simp [collect_urls] at hit
  | cons r rest ih =>
    intro seen it
    cases hr : r.url with
    | none =>
      simp only [collect_urls, hr]
      intro hit
      obtain ⟨hsrc, hne, hnotin, hin, ⟨r2, hr2, hru⟩, hdom⟩ := ih seen it hit
      exact ⟨hsrc, hne, hnotin, hin, ⟨r2, List.mem_cons_of_mem r hr2, hru⟩, hdom⟩
    | some v =>
      simp only [collect_urls, hr]
      by_cases h1 : v = ""
      · rw [if_pos h1]
        intro hit
        obtain ⟨hsrc, hne, hnotin, hin, ⟨r2, hr2, hru⟩, hdom⟩ := ih seen it hit
        exact ⟨hsrc, hne, hnotin, hin, ⟨r2, List.mem_cons_of_mem r hr2, hru⟩, hdom⟩
      · rw [if_neg h1]
        by_cases h2 : v ∈ seen
        · rw [if_pos h2]
          intro hit
          obtain ⟨hsrc, hne, hnotin, hin, ⟨r2, hr2, hru⟩, hdom⟩ := ih seen it hit
          exact ⟨hsrc, hne, hnotin, hin, ⟨r2, List.mem_cons_of_mem r hr2, hru⟩, hdom⟩
        · rw [if_neg h2]
          by_cases h3 : (f && hasAnyDomain v skip_domains) = true
          · rw [if_pos h3]
            intro hit
            obtain ⟨hsrc, hne, hnotin, hin, ⟨r2, hr2, hru⟩, hdom⟩ := ih seen it hit
            exact ⟨hsrc, hne, hnotin, hin, ⟨r2, List.mem_cons_of_mem r hr2, hru⟩, hdom⟩
          · rw [if_neg h3]
            intro hit
            rcases List.mem_cons.mp hit with rfl | hit2
            · refine ⟨rfl, h1, h2, ?_, ⟨r, List.mem_cons_self r rest, hr⟩, ?_⟩
              · exact collect_urls_seen_subset src f rest (v :: seen) v
                  (List.mem_cons_self v seen)
              · intro hf
                subst hf
                cases hdom : hasAnyDomain v skip_domains with
                | false => rfl
                | true => exact absurd (by rw [hdom]; rfl) h3
            · obtain ⟨hsrc, hne, hnotin, hin, ⟨r2, hr2, hru⟩, hdom⟩ := ih (v :: seen) it hit2
              refine ⟨hsrc, hne, fun hmem => hnotin (List.mem_cons_of_mem v hmem), hin,
                ⟨r2, List.mem_cons_of_mem r hr2, hru⟩, hdom⟩

/-- The urls of one collection pass are pairwise distinct. -/
theorem collect_urls_nodup (src : String) (f : Bool) :
    ∀ (rs : List RawResult) (seen : List String),
      ((collect_urls src f rs seen).1.map UrlItem.url).Nodup := by
  intro rs
  induction rs with
  | nil =>
    intro seen
    simp [collect_urls]
  | cons r rest ih =>
    intro seen
    cases hr : r.url with
    | none =>
      simp only [collect_urls, hr]
      exact ih seen
    | some v =>
      simp only [collect_urls, hr]
      by_cases h1 : v = ""
      · rw [if_pos h1]; exact ih seen
      · rw [if_neg h1]
        by_cases h2 : v ∈ seen
        · rw [if_pos h2]; exact ih seen
        · rw [if_neg h2]
          by_cases h3 : (f && hasAnyDomain v skip_domains) = true
          · rw [if_pos h3]; exact ih seen
          · rw [if_neg h3]
            rw [List.map_cons]
            refine List.nodup_cons.mpr ⟨?_, ih (v :: seen)⟩
            intro hmem
            obtain ⟨it2, hit2, hu2⟩ := List.mem_map.mp hmem
            have hspec := collect_urls_mem src f rest (v :: seen) it2 hit2
            exact hspec.2.2.1 (hu2.symm ▸ List.mem_cons_self v seen)

/-- Every truthy url of the input ends up in the seen set when no domain
filter applies (the exa loop). -/
theorem collect_urls_covers (src : String) :
    ∀ (rs : List RawResult) (seen : List String) (u : String),
      (∃ r, r ∈ rs ∧ r.url = some u) → u ≠ "" →
      u ∈ (collect_urls src false rs seen).2 := by
  intro rs
  induction rs with
  | nil =>
    intro seen u ⟨r, hr, _⟩ _
    simp at hr
  | cons r rest ih =>
    intro seen u ⟨r2, hr2, hu⟩ hne
    rcases List.mem_cons.mp hr2 with rfl | hr3
    · simp only [collect_urls, hu]
      rw [if_neg hne]
      by_cases h2 : u ∈ seen
      · rw [if_pos h2]
        exact collect_urls_seen_subset src false rest seen u h2
      · rw [if_neg h2]
        rw [if_neg (by simp)]
        exact collect_urls_seen_subset src false rest (u :: seen) u (List.mem_cons_self u seen)
    · cases hrr : r.url with
      | none =>
        simp only [collect_urls, hrr]
        exact ih seen u ⟨r2, hr3, hu⟩ hne
      | some v =>
        simp only [collect_urls, hrr]
        by_cases h1 : v = ""
        · rw [if_pos h1]
          exact ih seen u ⟨r2, hr3, hu⟩ hne
        · rw [if_neg h1]
          by_cases h2 : v ∈ seen
          · rw [if_pos h2]
            exact ih seen u ⟨r2, hr3, hu⟩ hne
          · rw [if_neg h2]
            rw [if_neg (by simp)]
            exact ih (v :: seen) u ⟨r2, hr3, hu⟩ hne

/-- The merged (uncapped) selection list has pairwise-distinct urls. -/
theorem merge_candidate_urls_nodup (e g : List RawResult) :
    ((merge_candidate_urls e g).map UrlItem.url).Nodup := by
  simp only [merge_candidate_urls]
  rw [List.map_append]
  refine List.Nodup.append (collect_urls_nodup "exa" false e [])
    (collect_urls_nodup "google" true g _) ?_
  intro u hu1 hu2
  obtain ⟨it1, hit1, hu1e⟩ := List.mem_map.mp hu1
  obtain ⟨it2, hit2, hu2e⟩ := List.mem_map.mp hu2
  have h1 := collect_urls_mem "exa" false e [] it1 hit1
  have h2 := collect_urls_mem "google" true g _ it2 hit2
  exact h2.2.2.1 (by rw [hu2e, ← hu1e]; exact h1.2.2.2.1)

/-- The capped selection list still has pairwise-distinct urls. -/
theorem urls_to_fetch_nodup (e g : List RawResult) (m : Nat) :
    ((urls_to_fetch e g m).map UrlItem.url).Nodup := by
  have hsub : List.Sublist ((urls_to_fetch e g m).map UrlItem.url)
      ((merge_candidate_urls e g).map UrlItem.url) :=
    List.Sublist.map _ (List.take_sublist _ _)
  exact (merge_candidate_urls_nodup e g).sublist hsub

/-- First-seen wins across sources in the selection list: a url already
produced by the exa results can only be selected as an exa item. -/
theorem urls_to_fetch_first_seen (e g : List RawResult) (m : Nat) :
    ∀ it ∈ urls_to_fetch e g m,
      (∃ r, r ∈ e ∧ r.url = some it.url) → it.source = "exa" := by
  intro it hit hex
  have hmem : it ∈ merge_candidate_urls e g :=
    (List.take_sublist _ _).subset hit
  simp only [merge_candidate_urls] at hmem
  rcases List.mem_append.mp hmem with h1 | h2
  · exact (collect_urls_mem "exa" false e [] it h1).1
  · exfalso
    have hspec := collect_urls_mem "google" true g _ it h2
    exact hspec.2.2.1 (collect_urls_covers "exa" e [] it.url hex hspec.2.1)

/-- Every selected url comes from the exa or the google result list. -/
theorem urls_to_fetch_provenance (e g : List RawResult) (m : Nat) :
    ∀ it ∈ urls_to_fetch e g m,
      (∃ r, r ∈ e ∧ r.url = some it.url) ∨ (∃ r, r ∈ g ∧ r.url = some it.url) := by
  intro it hit
  have hmem : it ∈ merge_candidate_urls e g := (List.take_sublist _ _).subset hit
  simp only [merge_candidate_urls] at hmem
  rcases List.mem_append.mp hmem with h1 | h2
  · exact Or.inl (collect_urls_mem "exa" false e [] it h1).2.2.2.2.1
  · exact Or.inr (collect_urls_mem "google" true g _ it h2).2.2.2.2.1

/-- Google-sourced selected urls match no skip domain. -/
theorem urls_to_fetch_google_domains (e g : List RawResult) (m : Nat) :
    ∀ it ∈ urls_to_fetch e g m, it.source = "google" →
      hasAnyDomain it.url skip_domains = false := by
  intro it hit hsrc
  have hmem : it ∈ merge_candidate_urls e g := (List.take_sublist _ _).subset hit
  simp only [merge_candidate_urls] at hmem
  rcases List.mem_append.mp hmem with h1 | h2
  · have hx := (collect_urls_mem "exa" false e [] it h1).1
    rw [hsrc] at hx
    exact absurd hx (by decide)
  · exact (collect_urls_mem "google" true g _ it h2).2.2.2.2.2 rfl

/-- The google per-query loop only grows the seen set. -/
theorem google_collect_seen_subset :
    ∀ (rs : List RawResult) (seen : List String) (u : String),
      u ∈ seen → u ∈ (google_collect rs seen).2 := by
  intro rs
  induction rs with
  | nil =>
    intro seen u hu
    simpa [google_collect] using hu
  | cons r rest ih =>
    intro seen u hu
    cases hr : r.url with
    | none =>
      simp only [google_collect, hr]
      exact ih seen u hu
    | some v =>
      simp only [google_collect, hr]
      by_cases h1 : v = ""
      · rw [if_pos h1]; exact ih seen u hu
      · rw [if_neg h1]
        by_cases h2 : v ∈ seen
        · rw [if_pos h2]; exact ih seen u hu
        · rw [if_neg h2]
          by_cases h3 : hasAnyDomain v excluded_domains = true
          · rw [if_pos h3]; exact ih seen u hu
          · rw [if_neg h3]
            exact ih (v :: seen) u (List.mem_cons_of_mem v hu)

/-- Every record kept by the google per-query loop has a truthy url that was
fresh and gets recorded. -/
theorem google_collect_mem :
    ∀ (rs : List RawResult) (seen : List String) (x : RawResult),
      x ∈ (google_collect rs seen).1 →
      ∃ u, x.url = some u ∧ u ∉ seen ∧ u ∈ (google_collect rs seen).2 := by
  intro rs
  induction rs with
  | nil =>
    intro seen x hx
    simp [google_collect] at hx
  | cons r rest ih =>
    intro seen x
    cases hr : r.url with
    | none =>
      simp only [google_collect, hr]
      exact ih seen x
    | some v =>
      simp only [google_collect, hr]
      by_cases h1 : v = ""
      · rw [if_pos h1]; exact ih seen x
      · rw [if_neg h1]
        by_cases h2 : v ∈ seen
        · rw [if_pos h2]; exact ih seen x
        · rw [if_neg h2]
          by_cases h3 : hasAnyDomain v excluded_domains = true
          · rw [if_pos h3]; exact ih seen x
          · rw [if_neg h3]
            intro hx
            rcases List.mem_cons.mp hx with rfl | hx2
            · exact ⟨v, hr, h2,
                google_collect_seen_subset rest (v :: seen) v (List.mem_cons_self v seen)⟩
            · obtain ⟨u, hu, hnotin, hin⟩ := ih (v :: seen) x hx2
              exact ⟨u, hu, fun hmem => hnotin (List.mem_cons_of_mem v hmem), hin⟩

/-- Urls are pairwise distinct within one google query pass. -/
theorem google_collect_nodup :
    ∀ (rs : List RawResult) (seen : List String),
      ((google_collect rs seen).1.filterMap RawResult.url).Nodup := by
  intro rs
  induction rs with
  | nil =>
    intro seen
    simp [google_collect]
  | cons r rest ih =>
    intro seen
    cases hr : r.url with
    | none =>
      simp only [google_collect, hr]
      exact ih seen
    | some v =>
      simp only [google_collect, hr]
      by_cases h1 : v = ""
      · rw [if_pos h1]; exact ih seen
      · rw [if_neg h1]
        by_cases h2 : v ∈ seen
        · rw [if_pos h2]; exact ih seen
        · rw [if_neg h2]
          by_cases h3 : hasAnyDomain v excluded_domains = true
          · rw [if_pos h3]; exact ih seen
          · rw [if_neg h3]
            rw [List.filterMap_cons, hr]
            refine List.nodup_cons.mpr ⟨?_, ih (v :: seen)⟩
            intro hmem
            obtain ⟨x, hx, hxu⟩ := List.mem_filterMap.mp hmem
            obtain ⟨u', hu', hnotin, _⟩ := google_collect_mem rest (v :: seen) x hx
            rw [hu'] at hxu
            exact hnotin ((Option.some.inj hxu) ▸ List.mem_cons_self v seen)

/-- Invariant of the query fold of search_media_appearances: accumulated urls
stay pairwise distinct and recorded in the shared seen set. -/
theorem smam_fold_spec :
    ∀ (qs : List (Except String (List RawResult))) (acc : List RawResult × List String),
      (acc.1.filterMap RawResult.url).Nodup ∧
        (∀ u, u ∈ acc.1.filterMap RawResult.url → u ∈ acc.2) →
      ((qs.foldl google_query_step acc).1.filterMap RawResult.url).Nodup ∧
        (∀ u, u ∈ (qs.foldl google_query_step acc).1.filterMap RawResult.url →
          u ∈ (qs.foldl google_query_step acc).2) := by
  intro qs
  induction qs with
  | nil =>
    intro acc h
    simpa using h
  | cons q rest ih =>
    intro acc h
    rw [List.foldl_cons]
    apply ih
    cases q with
    | error e => simpa [google_query_step] using h
    | ok rs =>
      simp only [google_query_step]
      constructor
      · rw [List.filterMap_append]
        refine List.Nodup.append h.1 (google_collect_nodup rs acc.2) ?_
        intro u hu1 hu2
        have hin := h.2 u hu1
        obtain ⟨x, hx, hxu⟩ := List.mem_filterMap.mp hu2
        obtain ⟨u', hu', hnotin, _⟩ := google_collect_mem rs acc.2 x hx
        rw [hu'] at hxu
        exact hnotin ((Option.some.inj hxu) ▸ hin)
      · intro u hu
        rw [List.filterMap_append] at hu
        rcases List.mem_append.mp hu with h1 | h2
        · exact google_collect_seen_subset rs acc.2 u (h.2 u h1)
        · obtain ⟨x, hx, hxu⟩ := List.mem_filterMap.mp h2
          obtain ⟨u', hu', _, hin⟩ := google_collect_mem rs acc.2 x hx
          rw [hu'] at hxu
          exact (Option.some.inj hxu) ▸ hin

/-- Within one search_media_appearances call the merged all_results list never
repeats a url. -/
theorem smam_urls_nodup (qs : List (Except String (List RawResult))) :
    ((search_media_appearances_merge qs).filterMap RawResult.url).Nodup :=
  (smam_fold_spec qs ([], []) (by simp)).1

/-- C3 counterexample: the aggregate results of one scrape_all run keep the
per-source candidate lists separate and never cross-deduplicate them — when
exa and google both return a record for the same url, both records survive and
the url is duplicated across the aggregate, against the claimed invariant. -/
theorem C3_counterexample :
    search_media_appearances_merge [Except.ok [⟨"B", some "https://example.com/a"⟩]]
      = [⟨"B", some "https://example.com/a"⟩]
    ∧ ¬ (all_source_urls (scrape_all "n" none 5 true false true
          (Except.ok [⟨"A", some "https://example.com/a"⟩]) (Except.ok [])
          (Except.ok [⟨"B", some "https://example.com/a"⟩])
          (fun _ => Except.error "x"))).Nodup := by
  constructor
  · decide
  · decide

/-- C3 amended: url uniqueness with first-seen-wins holds within one source's
own merge (google's all_results never repeats a url) and for the URL list
selected for content extraction (exa considered before google, so a url also
returned by exa is only ever selected as an exa item); the per-source candidate
lists of the aggregate are, however, not deduplicated against each other. -/
theorem C3_dedup_scope (e g : List RawResult) (m : Nat)
    (qs : List (Except String (List RawResult))) :
    ((search_media_appearances_merge qs).filterMap RawResult.url).Nodup
    ∧ ((urls_to_fetch e g m).map UrlItem.url).Nodup
    ∧ (∀ it ∈ urls_to_fetch e g m,
        (∃ r, r ∈ e ∧ r.url = some it.url) → it.source = "exa") :=
  ⟨smam_urls_nodup qs, urls_to_fetch_nodup e g m, urls_to_fetch_first_seen e g m⟩

/-- C5 counterexample: a youtube link returned by exa is selected for deep
content extraction (the skip-domain filter guards only the google loop) and
its content is fetched, against the claim that all video and social links are
excluded. -/
theorem C5_counterexample :
    urls_to_fetch [⟨"V", some "https://youtube.com/watch?v=1"⟩] [] 5
      = [⟨"https://youtube.com/watch?v=1", "exa", "V"⟩]
    ∧ hasAnyDomain "https://youtube.com/watch?v=1" skip_domains = true
    ∧ (scrape_all "n" none 5 true false false
          (Except.ok [⟨"V", some "https://youtube.com/watch?v=1"⟩]) (Except.ok []) (Except.ok [])
          (fun _ => Except.ok ⟨"T", "c"⟩)).content_fetched
        = [⟨"https://youtube.com/watch?v=1", "exa", "T", "c", 1⟩] := by
  refine ⟨by decide, by decide, by decide⟩

/-- C5 amended: the selection for deep-content extraction is the first
2 times max_results_per_source entries of the deduplicated merge, in merge
order; every selected url comes from the merged exa and google results; the
video and social skip-domain exclusion applies to the google-sourced entries
(exa-sourced urls are selected unfiltered); and content_fetched is populated
only from the selected urls. -/
theorem C5_selection_bounds (e g : List RawResult) (m : Nat)
    (jina : String → Except String JinaData) :
    (urls_to_fetch e g m).length ≤ m * 2
    ∧ urls_to_fetch e g m = (merge_candidate_urls e g).take (m * 2)
    ∧ (∀ it ∈ urls_to_fetch e g m,
        (∃ r, r ∈ e ∧ r.url = some it.url) ∨ (∃ r, r ∈ g ∧ r.url = some it.url))
    ∧ (∀ it ∈ urls_to_fetch e g m, it.source = "google" →
        hasAnyDomain it.url skip_domains = false)
    ∧ (∀ c ∈ fetch_content jina (urls_to_fetch e g m),
        c.url ∈ (urls_to_fetch e g m).map UrlItem.url)
    ∧ (∀ (fn : String) (cn : Option String) (ytOut : Except String (List RawResult)),
        (scrape_all fn cn m true true true (Except.ok e) ytOut (Except.ok g) jina).content_fetched
          = fetch_content jina (urls_to_fetch e g m)) := by
  refine ⟨?_, rfl, urls_to_fetch_provenance e g m, urls_to_fetch_google_domains e g m,
    ?_, ?_⟩
  · exact List.length_take_le (m * 2) (merge_candidate_urls e g)
  · intro c hc
    exact (fetch_content_urls_sublist jina (urls_to_fetch e g m)).subset
      (List.mem_map_of_mem ContentItem.url hc)
  · intro fn cn ytOut
    rfl

end SocialGraph
